import Mathlib

/-!
Shallow embedding of the chat process in `src/src/lib.rs` (mirrored, up to
the names of two library helpers, by `src/testing/src/lib.rs`): the data
model (`ChatRequest`, `ChatResponse`, `ChatMessage`, `NewMessage`,
`MessageArchive`) and the handlers (`handle_chat_request`,
`handle_http_server_request`, `handle_message`), with the side effects of a
handler call (protocol responses, WebSocket pushes, forwarded requests,
HTTP responses) collected in an explicit `Effects` record.  The one
fallible external call, `send_and_await_response(5)` on the forwarded
request, is supplied as a boolean oracle argument `forward_ok`; serde
decoding of inbound bytes is supplied as its result (an `Option`), since
the handlers only branch on whether decoding succeeded and on the decoded
value.
-/

namespace ChatProcess

/-- Wire command, `enum ChatRequest` in the source: `Send { target, message }`
or `History`. -/
inductive ChatRequest where
  | Send (target : String) (message : String)
  | History
deriving DecidableEq, Repr

/-- One archived message, `struct ChatMessage { author, content }`. -/
structure ChatMessage where
  author : String
  content : String
deriving DecidableEq, Repr

/-- The archive, `type MessageArchive = HashMap<String, Vec<ChatMessage>>`,
modelled as an association list with unique keys (only `get_mut`, `insert`
and `clone` are used on it). -/
abbrev MessageArchive := List (String × List ChatMessage)

/-- Wire response, `enum ChatResponse`: `Ack` or `History { messages }`. -/
inductive ChatResponse where
  | Ack
  | History (messages : MessageArchive)
deriving DecidableEq, Repr

/-- Payload of a live-channel push, `struct NewMessage { chat, author,
content }`. -/
structure NewMessage where
  chat : String
  author : String
  content : String
deriving DecidableEq, Repr

/-- Lookup of a conversation by key (`message_archive.get_mut`). -/
def lookupArchive : MessageArchive → String → Option (List ChatMessage)
  | [], _ => none
  | (k, ms) :: rest, key => if k = key then some ms else lookupArchive rest key

/-- The archive mutation of the `Send` branch: `get_mut`, with `insert` of an
empty vector when the key is absent, followed by `messages.push(new_message)`.
An existing entry for the key has the message appended; a missing entry is
created holding just the message. -/
def insertOrAppend : MessageArchive → String → ChatMessage → MessageArchive
  | [], key, msg => [(key, [msg])]
  | (k, ms) :: rest, key, msg =>
      if k = key then (k, ms ++ [msg]) :: rest
      else (k, ms) :: insertOrAppend rest key msg

/-- The observable side effects of one handler call: protocol responses sent
with `Response::new()...send()`, WebSocket pushes sent with
`send_ws_message` (paired with the channel id they were sent on), requests
forwarded to remote nodes with `Request::new()...send_and_await_response(5)`
(recorded by target node), and HTTP responses sent with `send_response`
(status code paired with the decoded body, `none` for an empty body). -/
structure Effects where
  responses : List ChatResponse
  wsPushes : List (Nat × NewMessage)
  forwards : List String
  httpResponses : List (Nat × Option ChatResponse)
deriving DecidableEq, Repr

/-- No side effects. -/
def noEffects : Effects := ⟨[], [], [], []⟩

/-- Result of `handle_chat_request`: the archive after the call, the effects
emitted, and whether the call returned `Ok` (`ok = false` models an `Err`
propagated by `?`, or the panic of the `.unwrap()` on a failed
`send_and_await_response`; either way the function is abandoned at that
point, so mutations textually after it do not happen). -/
structure ChatResult where
  archive : MessageArchive
  effects : Effects
  ok : Bool
deriving DecidableEq, Repr

/-- Embedding of `handle_chat_request(our, message_archive, channel_id,
source, ipc, is_http)`.  `chat_request` is the result of
`serde_json::from_slice::<ChatRequest>(ipc)` (`none` on decode failure);
`forward_ok` is the outcome of the `send_and_await_response(5)` round trip
performed when `target != our.node`. -/
def handle_chat_request (our source : String) (archive : MessageArchive)
    (channel_id : Nat) (chat_request : Option ChatRequest) (is_http : Bool)
    (forward_ok : Bool) : ChatResult :=
  match chat_request with
  | none =>
      -- decode failure: `return Ok(())` with no mutation and no effect
      { archive := archive, effects := noEffects, ok := true }
  | some (ChatRequest.Send target message) =>
      -- `counterparty` is the other node in the chat with us
      let counterparty := if target = our then source else target
      let author := if target = our then source else our
      let forwards := if target = our then [] else [target]
      let new_message : ChatMessage := { author := author, content := message }
      if target ≠ our ∧ forward_ok = false then
        -- `send_and_await_response(5)?.unwrap()`: a failed or timed-out
        -- forward abandons the handler here, before the archive append
        { archive := archive,
          effects := { noEffects with forwards := forwards }, ok := false }
      else if is_http then
        -- HTTP path: append and return, response handled by the caller
        { archive := insertOrAppend archive counterparty new_message,
          effects := { noEffects with forwards := forwards }, ok := true }
      else
        -- non-HTTP path: protocol `Ack`, append, then WebSocket push of the
        -- `NewMessage` event on the stored channel id
        { archive := insertOrAppend archive counterparty new_message,
          effects := { responses := [ChatResponse.Ack],
                       wsPushes := [(channel_id,
                         { chat := counterparty, author := author,
                           content := message })],
                       forwards := forwards,
                       httpResponses := [] },
          ok := true }
  | some ChatRequest.History =>
      -- protocol response carrying a clone of the whole archive
      { archive := archive,
        effects := { noEffects with
                       responses := [ChatResponse.History archive] },
        ok := true }

/-- The variants of the library's `HttpServerRequest` that the handler
matches on, with the fields it uses. -/
inductive HttpServerRequest where
  | WebSocketOpen (channel_id : Nat)
  | WebSocketPush
  | WebSocketClose (channel_id : Nat)
  | Http (method : String)
deriving DecidableEq, Repr

/-- Result of `handle_http_server_request`: archive, stored channel id,
effects, and `Ok`/`Err` outcome. -/
structure HttpResult where
  archive : MessageArchive
  channel_id : Nat
  effects : Effects
  ok : Bool
deriving DecidableEq, Repr

/-- Embedding of `handle_http_server_request(our, message_archive, source,
ipc, channel_id)`.  `server_request` is the result of
`serde_json::from_slice::<HttpServerRequest>(ipc)`; `payload` is the result
of `get_payload()` (`none` when no payload is attached), whose bytes are
given by their `ChatRequest` decoding. -/
def handle_http_server_request (our : String) (archive : MessageArchive)
    (source : String) (server_request : Option HttpServerRequest)
    (payload : Option (Option ChatRequest)) (channel_id : Nat)
    (forward_ok : Bool) : HttpResult :=
  match server_request with
  | none =>
      -- decode failure: `return Ok(())`
      ⟨archive, channel_id, noEffects, true⟩
  | some (HttpServerRequest.WebSocketOpen new_channel_id) =>
      -- set our channel id to the newly opened channel
      ⟨archive, new_channel_id, noEffects, true⟩
  | some HttpServerRequest.WebSocketPush =>
      match payload with
      | none => ⟨archive, channel_id, noEffects, true⟩
      | some bytes =>
          let r := handle_chat_request our source archive channel_id bytes
                     false forward_ok
          ⟨r.archive, channel_id, r.effects, r.ok⟩
  | some (HttpServerRequest.WebSocketClose _) =>
      ⟨archive, channel_id, noEffects, true⟩
  | some (HttpServerRequest.Http method) =>
      if method = "GET" then
        -- respond with the whole archive
        ⟨archive, channel_id,
         { noEffects with
             httpResponses := [(200, some (ChatResponse.History archive))] },
         true⟩
      else if method = "POST" then
        match payload with
        | none => ⟨archive, channel_id, noEffects, true⟩
        | some bytes =>
            let r := handle_chat_request our source archive channel_id bytes
                       true forward_ok
            if r.ok then
              -- `send_response(StatusCode::CREATED, None, vec![])`
              ⟨r.archive, channel_id,
               { r.effects with httpResponses := [(201, none)] }, true⟩
            else
              -- the `?` on `handle_chat_request` skips the 201 response
              ⟨r.archive, channel_id, r.effects, false⟩
      else
        -- method not allowed
        ⟨archive, channel_id,
         { noEffects with httpResponses := [(405, none)] }, true⟩

/-- Decoded content of an inbound request's ipc bytes.  The serde formats of
`ChatRequest` (externally tagged `Send`/`History`) and of the library's
`HttpServerRequest` (`WebSocketOpen`/`WebSocketPush`/`WebSocketClose`/
`Http`) are disjoint, so one byte sequence decodes as at most one of the
two. -/
inductive WireInput where
  | chat (c : ChatRequest)
  | http (h : HttpServerRequest)
deriving DecidableEq, Repr

/-- One inbound event as seen by `handle_message`: whether `await_message()`
returned a `Response` (logged and dropped) or a `Request`; the source node;
the decoding of the request's ipc bytes; the decoding of the attached
payload bytes, when any; and the oracle for the forwarded round trip. -/
structure InEvent where
  is_response : Bool
  source : String
  ipc : Option WireInput
  payload : Option (Option ChatRequest)
  forward_ok : Bool
deriving DecidableEq, Repr

/-- The mutable state of the process: `message_archive` and `channel_id`. -/
structure NodeState where
  archive : MessageArchive
  channel_id : Nat
deriving DecidableEq, Repr

/-- State set up by `init`: empty archive, channel id 0. -/
def initialState : NodeState := ⟨[], 0⟩

/-- Concatenation of the effects of two successive handler calls. -/
def Effects.append (e1 e2 : Effects) : Effects :=
  ⟨e1.responses ++ e2.responses, e1.wsPushes ++ e2.wsPushes,
   e1.forwards ++ e2.forwards, e1.httpResponses ++ e2.httpResponses⟩

/-- Result of one `handle_message` iteration. -/
structure StepResult where
  state : NodeState
  effects : Effects
  ok : Bool
deriving DecidableEq, Repr

/-- The `serde_json::from_slice::<ChatRequest>` view of the ipc bytes. -/
def chatDecode : Option WireInput → Option ChatRequest
  | some (WireInput.chat c) => some c
  | _ => none

/-- The `serde_json::from_slice::<HttpServerRequest>` view of the ipc
bytes. -/
def httpDecode : Option WireInput → Option HttpServerRequest
  | some (WireInput.http h) => some h
  | _ => none

/-- Embedding of `handle_message`: a `Response` is logged and dropped; a
`Request` is given first to `handle_chat_request` (ipc decoded as a
`ChatRequest`, `is_http = false`) and then, if that returned `Ok`, to
`handle_http_server_request` (ipc decoded as an `HttpServerRequest`). -/
def handle_message (our : String) (st : NodeState) (ev : InEvent) :
    StepResult :=
  if ev.is_response then ⟨st, noEffects, true⟩
  else
    let r1 := handle_chat_request our ev.source st.archive st.channel_id
                (chatDecode ev.ipc) false ev.forward_ok
    if r1.ok then
      let r2 := handle_http_server_request our r1.archive ev.source
                  (httpDecode ev.ipc) ev.payload st.channel_id ev.forward_ok
      ⟨⟨r2.archive, r2.channel_id⟩, Effects.append r1.effects r2.effects,
       r2.ok⟩
    else
      ⟨⟨r1.archive, st.channel_id⟩, r1.effects, false⟩

/-- The event loop of `init`: fold `handle_message` over a list of inbound
events, starting from the initial state (errors are logged and the loop
continues, which the fold models by always taking the resulting state). -/
def run (our : String) (events : List InEvent) : NodeState :=
  events.foldl (fun st ev => (handle_message our st ev).state) initialState

/-- Delivery of command bytes as an inbound WebSocket text frame: the
`WebSocketPush` arm of `handle_http_server_request`, with the frame bytes
as payload. -/
def wsFramePath (our source : String) (a : MessageArchive) (ch : Nat)
    (d : Option ChatRequest) (fwd : Bool) : HttpResult :=
  handle_http_server_request our a source
    (some HttpServerRequest.WebSocketPush) (some d) ch fwd

/-- Delivery of the same command bytes as an HTTP POST body: the `POST` arm
of `handle_http_server_request`, with the body bytes as payload. -/
def httpPostPath (our source : String) (a : MessageArchive) (ch : Nat)
    (d : Option ChatRequest) (fwd : Bool) : HttpResult :=
  handle_http_server_request our a source
    (some (HttpServerRequest.Http "POST")) (some d) ch fwd

/-- A decoded command that is a Send targeting the local node and issued by
the local node itself (a self-message). -/
def selfSend (our source : String) : ChatRequest → Bool
  | ChatRequest.Send target _ => target = our && source = our
  | ChatRequest.History => false

/-- An inbound event none of whose decoded commands (ipc or payload) is a
self-message. -/
def noSelfSend (our : String) (ev : InEvent) : Bool :=
  (match chatDecode ev.ipc with
   | some c => !(selfSend our ev.source c)
   | none => true) &&
  (match ev.payload with
   | some (some c) => !(selfSend our ev.source c)
   | _ => true)

/-- Every key of the archive differs from the local node's identifier. -/
def keysNotLocal (our : String) (a : MessageArchive) : Prop :=
  ∀ p ∈ a, p.1 ≠ our

/-- A key present in `insertOrAppend a key msg` is either `key` or a key of
`a`. -/
theorem mem_insertOrAppend (a : MessageArchive) (key : String)
    (msg : ChatMessage) (p : String × List ChatMessage)
    (hp : p ∈ insertOrAppend a key msg) :
    p.1 = key ∨ ∃ ms, (p.1, ms) ∈ a := by
  induction a with
  | nil =>
      simp [insertOrAppend] at hp
      simp [hp]
  | cons head tail ih =>
      obtain ⟨k, ms⟩ := head
      by_cases hk : k = key
      · subst hk
        simp [insertOrAppend] at hp
        rcases hp with hp | hp
        · simp [hp]
        · exact Or.inr ⟨p.2, by simp [List.mem_cons, hp]⟩
      · simp [insertOrAppend, hk] at hp
        rcases hp with hp | hp
        · exact Or.inr ⟨p.2, by simp [hp]⟩
        · rcases ih hp with h | ⟨ms2, h⟩
          · exact Or.inl h
          · exact Or.inr ⟨ms2, by simp [h]⟩

/-- The archive after a Send is either unchanged (the abort case) or the
appended archive, with counterparty and author as in the source's branch. -/
theorem send_archive_eq_or (our source target m : String)
    (a : MessageArchive) (ch : Nat) (is_http fwd : Bool) :
    (handle_chat_request our source a ch (some (ChatRequest.Send target m))
        is_http fwd).archive = a ∨
    (handle_chat_request our source a ch (some (ChatRequest.Send target m))
        is_http fwd).archive =
      insertOrAppend a (if target = our then source else target)
        ⟨if target = our then source else our, m⟩ := by
  simp only [handle_chat_request]
  by_cases habort : target ≠ our ∧ fwd = false
  · rw [if_pos habort]
    exact Or.inl rfl
  · rw [if_neg habort]
    cases is_http
    · exact Or.inr rfl
    · exact Or.inr rfl

/-- `handle_chat_request` preserves `keysNotLocal` when the handled command
is not a self-message. -/
theorem handle_chat_request_keysNotLocal (our source : String)
    (a : MessageArchive) (ch : Nat) (req : Option ChatRequest)
    (is_http fwd : Bool) (ha : keysNotLocal our a)
    (hreq : ∀ c, req = some c → selfSend our source c = false) :
    keysNotLocal our
      (handle_chat_request our source a ch req is_http fwd).archive := by
  match req with
  | none => exact ha
  | some ChatRequest.History => exact ha
  | some (ChatRequest.Send target m) =>
      have hsafe : target = our → source ≠ our := by
        intro ht hs
        have := hreq (ChatRequest.Send target m) rfl
        simp [selfSend, ht, hs] at this
      have hcp : (if target = our then source else target) ≠ our := by
        by_cases ht : target = our
        · rw [if_pos ht]; exact hsafe ht
        · rw [if_neg ht]; exact ht
      intro p hp
      rcases send_archive_eq_or our source target m a ch is_http fwd with
        harch | harch
      · rw [harch] at hp
        exact ha p hp
      · rw [harch] at hp
        rcases mem_insertOrAppend _ _ _ _ hp with h | ⟨ms, h⟩
        · rw [h]; exact hcp
        · exact ha (p.1, ms) h

/-- `handle_http_server_request` preserves `keysNotLocal` when the payload
carries no self-message. -/
theorem handle_http_server_request_keysNotLocal (our source : String)
    (a : MessageArchive) (req : Option HttpServerRequest)
    (payload : Option (Option ChatRequest)) (ch : Nat) (fwd : Bool)
    (ha : keysNotLocal our a)
    (hpl : ∀ c, payload = some (some c) → selfSend our source c = false) :
    keysNotLocal our
      (handle_http_server_request our a source req payload ch fwd).archive := by
  match req with
  | none => exact ha
  | some (HttpServerRequest.WebSocketOpen n) => exact ha
  | some (HttpServerRequest.WebSocketClose n) => exact ha
  | some HttpServerRequest.WebSocketPush =>
      match payload with
      | none => exact ha
      | some bytes =>
          exact handle_chat_request_keysNotLocal our source a ch bytes
            false fwd ha (fun c hc => hpl c (by rw [hc]))
  | some (HttpServerRequest.Http method) =>
      by_cases hg : method = "GET"
      · subst hg; exact ha
      · by_cases hp : method = "POST"
        · subst hp
          match payload with
          | none => exact ha
          | some bytes =>
              have hchat := handle_chat_request_keysNotLocal our source a ch
                bytes true fwd ha (fun c hc => hpl c (by rw [hc]))
              by_cases hok :
                  (handle_chat_request our source a ch bytes true fwd).ok =
                    true
              · simpa [handle_http_server_request, hg, hok] using hchat
              · simpa [handle_http_server_request, hg, hok] using hchat
        · simpa [handle_http_server_request, hg, hp] using ha

/-- One `handle_message` step preserves `keysNotLocal` on events with no
self-message. -/
theorem handle_message_keysNotLocal (our : String) (st : NodeState)
    (ev : InEvent) (ha : keysNotLocal our st.archive)
    (hev : noSelfSend our ev = true) :
    keysNotLocal our (handle_message our st ev).state.archive := by
  rw [noSelfSend, Bool.and_eq_true] at hev
  obtain ⟨hipc, hpl⟩ := hev
  by_cases hresp : ev.is_response
  · simpa [handle_message, hresp] using ha
  · have h1 := handle_chat_request_keysNotLocal our ev.source st.archive
      st.channel_id (chatDecode ev.ipc) false ev.forward_ok ha
      (by
        intro c hc
        rw [hc] at hipc
        simpa using hipc)
    have h2 := handle_http_server_request_keysNotLocal our ev.source
      (handle_chat_request our ev.source st.archive st.channel_id
        (chatDecode ev.ipc) false ev.forward_ok).archive
      (httpDecode ev.ipc) ev.payload st.channel_id ev.forward_ok h1
      (by
        intro c hc
        rw [hc] at hpl
        simpa using hpl)
    by_cases hok :
        (handle_chat_request our ev.source st.archive st.channel_id
          (chatDecode ev.ipc) false ev.forward_ok).ok = true
    · simpa [handle_message, hresp, hok] using h2
    · simpa [handle_message, hresp, hok] using h1

/-- C6: for every Send command, the counterparty and author are determined
as: if `target` equals the local node's identifier then counterparty =
source identity and author = source identity; otherwise counterparty =
`target` and author = the local identity (including the third-party relay
case, archived under `target`).  Stated for every call of
`handle_chat_request` that reaches the append (the forward, when one is
made, succeeded). -/
theorem send_counterparty_author (our source target m : String)
    (a : MessageArchive) (ch : Nat) (is_http fwd : Bool)
    (h : target = our ∨ fwd = true) :
    (handle_chat_request our source a ch (some (ChatRequest.Send target m))
        is_http fwd).archive =
      insertOrAppend a (if target = our then source else target)
        ⟨if target = our then source else our, m⟩ := by
  by_cases ht : target = our
  · subst ht
    cases is_http <;> simp [handle_chat_request]
  · rcases h with h | h
    · exact absurd h ht
    · subst h
      cases is_http <;> simp [handle_chat_request, ht]

/-- Witness for C6 at a concrete input (an inbound send addressed to the
local node "alice" from "bob"). -/
theorem send_counterparty_author_witness :
    ("alice" = "alice" ∨ false = true) ∧
    (handle_chat_request "alice" "bob" [] 0
        (some (ChatRequest.Send "alice" "hi")) false false).archive =
      insertOrAppend [] (if "alice" = "alice" then "bob" else "alice")
        ⟨if "alice" = "alice" then "bob" else "alice", "hi"⟩ :=
  ⟨Or.inl rfl,
   send_counterparty_author "alice" "bob" "alice" "hi" [] 0 false false
     (Or.inl rfl)⟩

/-- C7: a Send arriving from a remote peer (`is_http = false`, handled by
`handle_message` on a network `Request`) whose target is the local node
appends `{author: s, content: m}` under key `s` (creating the entry if
absent) and sends exactly one protocol-level `Ack` response back to that
peer.  The full step result also shows the single push event and the
absence of forwards or HTTP responses. -/
theorem remote_send_ack_and_archive (our s m : String) (a : MessageArchive)
    (ch : Nat) (pl : Option (Option ChatRequest)) (fwd : Bool) :
    handle_message our ⟨a, ch⟩
        ⟨false, s, some (WireInput.chat (ChatRequest.Send our m)), pl, fwd⟩ =
      ⟨⟨insertOrAppend a s ⟨s, m⟩, ch⟩,
       ⟨[ChatResponse.Ack], [(ch, ⟨s, s, m⟩)], [], []⟩, true⟩ := by
  simp [handle_message, handle_chat_request, handle_http_server_request,
        chatDecode, httpDecode, Effects.append, noEffects]

/-- C8: an input byte sequence that does not decode as a valid chat command
(nor as an HTTP-server event) produces no response, mutates no archive
entry, and the handler returns `Ok` so the event loop continues. -/
theorem undecodable_bytes_dropped (our : String) (st : NodeState)
    (s : String) (pl : Option (Option ChatRequest)) (fwd : Bool) :
    handle_message our st ⟨false, s, none, pl, fwd⟩ = ⟨st, noEffects, true⟩ := by
  cases pl <;> rfl

/-- C9: a History request returns a snapshot of the full archive (the
protocol response carries exactly the current mapping, hence exactly the
keys and per-key message orders of the archive) and mutates no state, so a
second History issued on the resulting state returns the identical
result. -/
theorem history_snapshot_pure (our source : String) (a : MessageArchive)
    (ch : Nat) (is_http fwd : Bool) :
    handle_chat_request our source a ch (some ChatRequest.History)
        is_http fwd =
      ⟨a, ⟨[ChatResponse.History a], [], [], []⟩, true⟩ ∧
    handle_chat_request our source
        (handle_chat_request our source a ch (some ChatRequest.History)
          is_http fwd).archive
        ch (some ChatRequest.History) is_http fwd =
      handle_chat_request our source a ch (some ChatRequest.History)
        is_http fwd := by
  exact ⟨rfl, rfl⟩

/-- C10: an HTTP POST whose payload decodes as History leaves the archive
unchanged, emits one protocol-level History response carrying the full
archive over the process response channel, and the HTTP layer still sends
the 201 Created acknowledgement intended for sends. -/
theorem http_post_history_response (our source : String)
    (a : MessageArchive) (ch : Nat) (fwd : Bool) :
    handle_http_server_request our a source
        (some (HttpServerRequest.Http "POST"))
        (some (some ChatRequest.History)) ch fwd =
      ⟨a, ch, ⟨[ChatResponse.History a], [], [], [(201, none)]⟩, true⟩ := by
  rfl

/-- Unfolding of the WebSocket-frame delivery path. -/
theorem wsFramePath_eq (our source : String) (a : MessageArchive) (ch : Nat)
    (d : Option ChatRequest) (fwd : Bool) :
    wsFramePath our source a ch d fwd =
      ⟨(handle_chat_request our source a ch d false fwd).archive, ch,
       (handle_chat_request our source a ch d false fwd).effects,
       (handle_chat_request our source a ch d false fwd).ok⟩ := rfl

/-- Unfolding of the HTTP POST delivery path. -/
theorem httpPostPath_eq (our source : String) (a : MessageArchive) (ch : Nat)
    (d : Option ChatRequest) (fwd : Bool) :
    httpPostPath our source a ch d fwd =
      if (handle_chat_request our source a ch d true fwd).ok then
        ⟨(handle_chat_request our source a ch d true fwd).archive, ch,
         { (handle_chat_request our source a ch d true fwd).effects with
             httpResponses := [(201, none)] }, true⟩
      else
        ⟨(handle_chat_request our source a ch d true fwd).archive, ch,
         (handle_chat_request our source a ch d true fwd).effects,
         false⟩ := rfl

/-- The archive produced by `handle_chat_request` does not depend on the
`is_http` flag (only the emitted responses and pushes do). -/
theorem chat_archive_independent_of_is_http (our source : String)
    (a : MessageArchive) (ch : Nat) (req : Option ChatRequest) (fwd : Bool) :
    (handle_chat_request our source a ch req false fwd).archive =
      (handle_chat_request our source a ch req true fwd).archive := by
  match req with
  | none => rfl
  | some ChatRequest.History => rfl
  | some (ChatRequest.Send target m) =>
      simp only [handle_chat_request]
      by_cases habort : target ≠ our ∧ fwd = false
      · rw [if_pos habort, if_pos habort]
      · rw [if_neg habort, if_neg habort]
        rfl

/-- C1 counterexample: a Send to the unreachable peer "bob" (the bounded
5-time-unit wait failed, `forward_ok = false`) does not append anything:
the handler aborts with an error after the forward attempt, and the archive
is still empty.  The claimed append of `{author: "alice", content: "hi"}`
under key "bob" never happens. -/
theorem forward_failure_drops_message :
    handle_chat_request "alice" "alice" [] 0
        (some (ChatRequest.Send "bob" "hi")) true false =
      ⟨[], ⟨[], [], ["bob"], []⟩, false⟩ := by decide

/-- C1 amended: for every Send whose target is not the local node, if the
forwarded remote request fails or times out, the handler is abandoned by
the `?`/`.unwrap()` on `send_and_await_response(5)` before the archive
append: the archive is left unchanged (the message is not archived), the
only effect is the forward attempt itself, and the call does not return
`Ok`. -/
theorem forward_failure_aborts_before_append (our source target m : String)
    (a : MessageArchive) (ch : Nat) (is_http : Bool) (h : target ≠ our) :
    handle_chat_request our source a ch (some (ChatRequest.Send target m))
        is_http false =
      ⟨a, ⟨[], [], [target], []⟩, false⟩ := by
  simp [handle_chat_request, noEffects, h]

/-- Witness for C1 amended at a concrete input. -/
theorem forward_failure_aborts_witness :
    ("bob" ≠ "alice") ∧
    handle_chat_request "alice" "alice" [] 0
        (some (ChatRequest.Send "bob" "hi")) false false =
      ⟨[], ⟨[], [], ["bob"], []⟩, false⟩ :=
  ⟨by decide,
   forward_failure_aborts_before_append "alice" "alice" "bob" "hi" [] 0 false
     (by decide)⟩

/-- C2 counterexample: a Send handled on the local HTTP surface
(`is_http = true`) with a live channel registered (channel id 5) appends
successfully but emits no push event at all: the HTTP branch returns before
the push. -/
theorem http_send_no_push_counterexample :
    (handle_chat_request "alice" "alice" [] 5
        (some (ChatRequest.Send "bob" "hi")) true true).ok = true ∧
    (handle_chat_request "alice" "alice" [] 5
        (some (ChatRequest.Send "bob" "hi")) true true).archive =
      [("bob", [⟨"alice", "hi"⟩])] ∧
    (handle_chat_request "alice" "alice" [] 5
        (some (ChatRequest.Send "bob" "hi")) true true).effects.wsPushes =
      [] := by decide

/-- C2 amended: for every successfully decoded Send that reaches the append,
exactly one push event with matching chat, author and content is emitted on
the non-HTTP path (`is_http = false`, i.e. peer requests and WebSocket
frames), on the stored channel id whether or not a channel was ever
registered; a Send handled on the local HTTP surface (`is_http = true`)
emits no push. -/
theorem push_exactly_on_non_http (our source target m : String)
    (a : MessageArchive) (ch : Nat) (fwd : Bool)
    (h : target = our ∨ fwd = true) :
    (handle_chat_request our source a ch (some (ChatRequest.Send target m))
        false fwd).effects.wsPushes =
      [(ch, ⟨if target = our then source else target,
             if target = our then source else our, m⟩)] ∧
    (handle_chat_request our source a ch (some (ChatRequest.Send target m))
        true fwd).effects.wsPushes = [] := by
  have habort : ¬(target ≠ our ∧ fwd = false) := by
    rcases h with h | h
    · exact fun hc => hc.1 h
    · subst h
      exact fun hc => Bool.noConfusion hc.2
  constructor
  · simp only [handle_chat_request]
    rw [if_neg habort]
    rfl
  · simp only [handle_chat_request]
    rw [if_neg habort]
    rfl

/-- Witness for C2 amended at a concrete input. -/
theorem push_exactly_on_non_http_witness :
    ("alice" = "alice" ∨ true = true) ∧
    ((handle_chat_request "alice" "bob" [] 5
        (some (ChatRequest.Send "alice" "hi")) false true).effects.wsPushes =
      [(5, ⟨if "alice" = "alice" then "bob" else "alice",
            if "alice" = "alice" then "bob" else "alice", "hi"⟩)] ∧
     (handle_chat_request "alice" "bob" [] 5
        (some (ChatRequest.Send "alice" "hi")) true true).effects.wsPushes =
      []) :=
  ⟨Or.inl rfl,
   push_exactly_on_non_http "alice" "bob" "alice" "hi" [] 5 true (Or.inl rfl)⟩

/-- C3 counterexample: a Send targeting the local node that was issued by
the local node itself (a self-message, e.g. a local WebSocket frame or a
local HTTP POST with `target = our`) is archived under the local node's own
identifier: after one such handled command the archive's only key is
"alice", the local identity. -/
theorem self_send_archives_under_local_key :
    run "alice"
      [⟨false, "alice",
        some (WireInput.chat (ChatRequest.Send "alice" "hi")), none, true⟩] =
      ⟨[("alice", [⟨"alice", "hi"⟩])], 0⟩ := by decide

/-- C3 amended: for every reachable state of the archive after any sequence
of handled commands none of which is a self-message (a Send whose target is
the local node issued by the local node itself), no key of the archive
equals the local node's own identifier. -/
theorem archive_keys_never_local_without_self_sends (our : String)
    (events : List InEvent)
    (h : ∀ ev ∈ events, noSelfSend our ev = true) :
    ∀ p ∈ (run our events).archive, p.1 ≠ our := by
  have main : ∀ (evs : List InEvent) (st : NodeState),
      keysNotLocal our st.archive →
      (∀ ev ∈ evs, noSelfSend our ev = true) →
      keysNotLocal our
        (evs.foldl (fun s ev => (handle_message our s ev).state) st).archive := by
    intro evs
    induction evs with
    | nil =>
        intro st hst _
        exact hst
    | cons e rest ih =>
        intro st hst hall
        simp only [List.foldl_cons]
        exact ih _
          (handle_message_keysNotLocal our st e hst (hall e (by simp)))
          (fun ev hev => hall ev (by simp [hev]))
  exact main events initialState (by intro p hp; simp [initialState] at hp) h

/-- Witness for C3 amended: one handled command from the distinct peer
"bob", after which every archive key differs from the local identity. -/
theorem archive_keys_never_local_witness :
    (∀ ev ∈ [(⟨false, "bob",
        some (WireInput.chat (ChatRequest.Send "alice" "hi")), none,
        true⟩ : InEvent)], noSelfSend "alice" ev = true) ∧
    (∀ p ∈ (run "alice"
        [⟨false, "bob",
          some (WireInput.chat (ChatRequest.Send "alice" "hi")), none,
          true⟩]).archive, p.1 ≠ "alice") :=
  ⟨by decide,
   archive_keys_never_local_without_self_sends "alice"
     [⟨false, "bob",
       some (WireInput.chat (ChatRequest.Send "alice" "hi")), none, true⟩]
     (by decide)⟩

/-- C4 counterexample: the same command bytes (a Send addressed to the local
node) delivered once as an inbound WebSocket text frame and once as an HTTP
POST body produce different effects from the same starting state: the frame
path sends a protocol Ack and a push, the POST path sends neither. -/
theorem ws_and_http_paths_differ :
    (wsFramePath "alice" "bob" [] 7 (some (ChatRequest.Send "alice" "hi"))
        true).effects ≠
    (httpPostPath "alice" "bob" [] 7 (some (ChatRequest.Send "alice" "hi"))
        true).effects := by decide

/-- C4 amended: for every command bytes and every starting state the two
delivery paths agree on the resulting archive and stored channel id, but
not on acknowledgement and push behaviour: for a Send addressed to the
local node, the WebSocket-frame path emits one protocol Ack and one push
event and no HTTP response, while the HTTP POST path emits no Ack and no
push and answers 201 Created. -/
theorem ws_http_same_archive_different_effects (our source : String)
    (a : MessageArchive) (ch : Nat) (d : Option ChatRequest) (fwd : Bool) :
    ((wsFramePath our source a ch d fwd).archive =
       (httpPostPath our source a ch d fwd).archive ∧
     (wsFramePath our source a ch d fwd).channel_id =
       (httpPostPath our source a ch d fwd).channel_id) ∧
    ∀ m : String,
      (wsFramePath our source a ch (some (ChatRequest.Send our m))
          fwd).effects =
        ⟨[ChatResponse.Ack], [(ch, ⟨source, source, m⟩)], [], []⟩ ∧
      (httpPostPath our source a ch (some (ChatRequest.Send our m))
          fwd).effects = ⟨[], [], [], [(201, none)]⟩ := by
  have hne : ∀ b : Bool, ¬(our ≠ our ∧ b = false) := fun b hc => hc.1 rfl
  constructor
  · have harch := chat_archive_independent_of_is_http our source a ch d fwd
    rw [wsFramePath_eq, httpPostPath_eq]
    cases hok : (handle_chat_request our source a ch d true fwd).ok <;>
      simp [hok, harch]
  · intro m
    constructor
    · rw [wsFramePath_eq]
      simp only [handle_chat_request]
      rw [if_neg (hne fwd)]
      simp
    · rw [httpPostPath_eq]
      simp only [handle_chat_request]
      rw [if_neg (hne fwd)]
      simp [noEffects]

/-- C5 counterexample: with no live channel registered (the stored channel
id still holds its initial value 0), a successful non-HTTP append still
attempts a push: the handler sends one WebSocket message on channel id 0. -/
theorem zero_channel_push_attempted :
    (handle_chat_request "alice" "bob" [] 0
        (some (ChatRequest.Send "alice" "hi")) false true).ok = true ∧
    (handle_chat_request "alice" "bob" [] 0
        (some (ChatRequest.Send "alice" "hi")) false true).effects.wsPushes =
      [(0, ⟨"bob", "bob", "hi"⟩)] := by decide

/-- C5 amended: when no live channel is registered (channel id 0, its
initial value), a successful non-HTTP append still invokes the WebSocket
send once, on channel id 0, and no error results; an HTTP-path append
attempts no push and also produces no error. -/
theorem zero_channel_send_behaviour (our source target m : String)
    (a : MessageArchive) (fwd : Bool) (h : target = our ∨ fwd = true) :
    (handle_chat_request our source a 0 (some (ChatRequest.Send target m))
        false fwd).ok = true ∧
    (handle_chat_request our source a 0 (some (ChatRequest.Send target m))
        false fwd).effects.wsPushes =
      [(0, ⟨if target = our then source else target,
            if target = our then source else our, m⟩)] ∧
    (handle_chat_request our source a 0 (some (ChatRequest.Send target m))
        true fwd).ok = true := by
  have habort : ¬(target ≠ our ∧ fwd = false) := by
    rcases h with h | h
    · exact fun hc => hc.1 h
    · subst h
      exact fun hc => Bool.noConfusion hc.2
  refine ⟨?_, ?_, ?_⟩ <;>
    · simp only [handle_chat_request]
      rw [if_neg habort]
      rfl

/-- Witness for C5 amended at a concrete input. -/
theorem zero_channel_send_behaviour_witness :
    ("alice" = "alice" ∨ false = true) ∧
    ((handle_chat_request "alice" "bob" [] 0
        (some (ChatRequest.Send "alice" "hi")) false false).ok = true ∧
     (handle_chat_request "alice" "bob" [] 0
        (some (ChatRequest.Send "alice" "hi")) false false).effects.wsPushes =
       [(0, ⟨if "alice" = "alice" then "bob" else "alice",
             if "alice" = "alice" then "bob" else "alice", "hi"⟩)] ∧
     (handle_chat_request "alice" "bob" [] 0
        (some (ChatRequest.Send "alice" "hi")) true false).ok = true) :=
  ⟨Or.inl rfl,
   zero_channel_send_behaviour "alice" "bob" "alice" "hi" [] false
     (Or.inl rfl)⟩

end ChatProcess
